import Mathlib

/-!
Shallow embedding of the inventory HTTP service
(`src/main.js`, SQL-backed, and `src/unnamed/part_000`, in-memory).

Modelling conventions:
* An uploaded file is modelled by its resolved absolute path (`Option String`:
  `none` = no file in the multipart request). Multer writes the uploaded file
  into the cache directory before the route handler runs; this is `multerSave`.
* The disk is the list of file paths that currently exist (`fs.existsSync` is
  membership, `fs.unlinkSync` removes one occurrence or throws if absent).
* Request body fields (`name`, `description`, `inventory_name`, `id`,
  `includePhoto`) are `Option String`: `none` = the field is absent
  (JS `undefined`), `some s` = the field is present with string value `s`.
* Path parameters arrive as the integer produced by `parseInt(req.params.id)`.
* A handler returns its HTTP status code, its JSON payload where a claim
  needs it, and the state after the request.
-/

namespace Inventory

/-- One inventory record, as built by `POST /register` in both variants:
`{ id, name, description, photo }` where `photo` is the absolute path of the
stored photo file or `null`. -/
structure Item where
  id : Nat
  name : String
  description : String
  photo : Option String
  deriving Repr, DecidableEq

/-- The mutable state a request can touch: the item records (`inventory` array
in `part_000`, `items` table in `main.js`), the id source (`nextId` counter in
`part_000`, the `SERIAL` sequence in `main.js`), and the set of files on disk
under the cache directory. -/
structure MemState where
  inventory : List Item
  nextId : Nat
  disk : List String
  deriving Repr, DecidableEq

/-- JS truthiness of an optional string field: `undefined` and `""` are falsy
(`if (!inventory_name)`, `if (req.body.name)`). -/
def jsTruthy : Option String → Bool
  | none => false
  | some s => !(s == "")

/-- JS `x || d` for an optional string: falsy (`undefined` or `""`) falls back
to `d` (`description || ''`). -/
def jsOr (x : Option String) (d : String) : String :=
  match x with
  | none => d
  | some s => if s == "" then d else s

/-- `fs.existsSync(p)` against the modelled disk. -/
def existsSync (p : String) (disk : List String) : Bool :=
  disk.contains p

/-- `fs.unlinkSync(p)`: removes the file, or throws `ENOENT` if it is absent. -/
def unlinkSync (p : String) (disk : List String) : Except String (List String) :=
  if p ∈ disk then .ok (disk.erase p) else .error "ENOENT"

/-- The guarded cleanup both variants use before dropping a photo reference:
`if (photo && fs.existsSync(photo)) fs.unlinkSync(photo)`.  Returns the disk
after the conditional unlink. -/
def cleanupPhoto (photo : Option String) (disk : List String) : List String :=
  match photo with
  | none => disk
  | some p => if existsSync p disk then (unlinkSync p disk).toOption.getD disk else disk

/-- The same guarded cleanup, kept in the exception monad so that the
possibility of `unlinkSync` throwing stays visible. -/
def deletePhotoIfExists (photo : Option String) (disk : List String) :
    Except String (List String) :=
  match photo with
  | none => .ok disk
  | some p => if existsSync p disk then unlinkSync p disk else .ok disk

/-- The multer middleware (`upload.single('photo')`): when the request carries
a file it is written into the cache directory before the handler runs. -/
def multerSave (st : MemState) (file : Option String) : MemState :=
  match file with
  | none => st
  | some p => { st with disk := p :: st.disk }

/-- Mutating the first list element with the given id through the reference
returned by `inventory.find(i => i.id === itemId)`. -/
def updateFirst (inv : List Item) (itemId : Nat) (f : Item → Item) : List Item :=
  match inv with
  | [] => []
  | it :: rest =>
      if it.id == itemId then f it :: rest else it :: updateFirst rest itemId f

/-- `inventory.splice(itemIndex, 1)` after
`findIndex(i => i.id === itemId)`: the removed element (if any) and the
remaining list. -/
def removeFirst (inv : List Item) (itemId : Nat) : Option Item × List Item :=
  match inv with
  | [] => (none, [])
  | it :: rest =>
      if it.id == itemId then (some it, rest)
      else
        let r := removeFirst rest itemId
        (r.1, it :: r.2)

/-- The `photo_url` value computed by the list/get read paths:
`item.photo ? `/inventory/${item.id}/photo` : null`. -/
def photoUrl (item : Item) : Option String :=
  match item.photo with
  | some _ => some ("/inventory/" ++ toString item.id ++ "/photo")
  | none => none

/-- The flattened read-path payload `{ ...item, photo_url: ... }`. -/
structure ItemWithLink where
  id : Nat
  name : String
  description : String
  photo : Option String
  photo_url : Option String
  deriving Repr, DecidableEq

/-- `{ ...item, photo_url: item.photo ? `/inventory/${item.id}/photo` : null }`. -/
def withLink (item : Item) : ItemWithLink :=
  { id := item.id, name := item.name, description := item.description,
    photo := item.photo, photo_url := photoUrl item }

/-! ### In-memory variant (`src/unnamed/part_000`) -/

/-- `app.post('/register')` handler body (`part_000` lines 78–98), after multer
has run: `400` on falsy `inventory_name`, else push
`{ id: nextId++, name, description: description || '', photo }` and answer
`201` with the new record. -/
def registerMem (st : MemState) (inventory_name description : Option String)
    (photo : Option String) : Nat × Option Item × MemState :=
  if !(jsTruthy inventory_name) then (400, none, st)
  else
    let newItem : Item :=
      { id := st.nextId, name := jsOr inventory_name "",
        description := jsOr description "", photo := photo }
    (201, some newItem,
      { st with inventory := st.inventory ++ [newItem], nextId := st.nextId + 1 })

/-- `POST /register` as a whole request: multer stores the uploaded file, then
the handler runs. -/
def registerMemReq (st : MemState) (inventory_name description : Option String)
    (file : Option String) : Nat × Option Item × MemState :=
  registerMem (multerSave st file) inventory_name description file

/-- `app.get('/inventory')` (`part_000` lines 133–139): every record augmented
with `photo_url`. -/
def listMem (st : MemState) : Nat × List ItemWithLink :=
  (200, st.inventory.map withLink)

/-- `app.get('/inventory/:id')` (`part_000` lines 161–172). -/
def getByIdMem (st : MemState) (itemId : Nat) : Nat × Option ItemWithLink :=
  match st.inventory.find? (fun i => i.id == itemId) with
  | none => (404, none)
  | some item => (200, some (withLink item))

/-- The field mutations of `app.put('/inventory/:id')` (`part_000` lines
215–222): each field overwritten only when truthy (present and non-empty). -/
def applyUpdate (name description : Option String) (item : Item) : Item :=
  let item := if jsTruthy name then { item with name := jsOr name item.name } else item
  if jsTruthy description then { item with description := jsOr description item.description }
  else item

/-- `app.put('/inventory/:id')` (`part_000` lines 207–225): `404` when no
record matches, else mutate the found record in place and answer `200` with
it. -/
def updateMem (st : MemState) (itemId : Nat) (name description : Option String) :
    Nat × Option Item × MemState :=
  match st.inventory.find? (fun i => i.id == itemId) with
  | none => (404, none, st)
  | some item =>
      (200, some (applyUpdate name description item),
        { st with inventory := updateFirst st.inventory itemId (applyUpdate name description) })

/-- `app.get('/inventory/:id/photo')` (`part_000` lines 252–262): `404` when
the item is unknown, has no photo, or the file is gone; else the file is
streamed (`200`). -/
def getPhotoMem (st : MemState) (itemId : Nat) : Nat :=
  match st.inventory.find? (fun i => i.id == itemId) with
  | none => 404
  | some item =>
      match item.photo with
      | none => 404
      | some p => if existsSync p st.disk then 200 else 404

/-- `app.put('/inventory/:id/photo')` handler body (`part_000` lines 297–319):
the not-found check comes first, then the file check; on success the old file
is conditionally unlinked and the record's `photo` is overwritten. -/
def replacePhotoMem (st : MemState) (itemId : Nat) (file : Option String) :
    Nat × MemState :=
  match st.inventory.find? (fun i => i.id == itemId) with
  | none => (404, st)
  | some item =>
      match file with
      | some newPath =>
          let disk := cleanupPhoto item.photo st.disk
          (200, { st with
                    inventory := updateFirst st.inventory itemId
                      (fun it => { it with photo := some newPath }),
                    disk := disk })
      | none => (400, st)

/-- `PUT /inventory/:id/photo` as a whole request: multer first, then the
handler. -/
def replacePhotoMemReq (st : MemState) (itemId : Nat) (file : Option String) :
    Nat × MemState :=
  replacePhotoMem (multerSave st file) itemId file

/-- `app.delete('/inventory/:id')` (`part_000` lines 340–356): `404` when no
record matches, else splice it out and conditionally unlink its photo. -/
def deleteMem (st : MemState) (itemId : Nat) : Nat × MemState :=
  match removeFirst st.inventory itemId with
  | (none, _) => (404, st)
  | (some deletedItem, rest) =>
      (200, { st with inventory := rest,
                      disk := cleanupPhoto deletedItem.photo st.disk })

/-- The textual note `app.post('/search')` appends:
` [Photo Link: /inventory/${id}/photo]`. -/
def photoNote (id : Nat) : String :=
  " [Photo Link: /inventory/" ++ toString id ++ "/photo]"

/-- `app.post('/search')` (`part_000` lines 386–404): the record is shallow
copied; when `includePhoto === 'on'` and the copy has a photo the note is
appended to the copy's description.  The state is returned unchanged because
the handler never writes to `inventory`. -/
def searchMem (st : MemState) (itemId : Nat) (includePhoto : Option String) :
    Nat × Option Item × MemState :=
  match st.inventory.find? (fun i => i.id == itemId) with
  | none => (404, none, st)
  | some item =>
      let result :=
        if includePhoto == some "on" && item.photo.isSome then
          { item with description := item.description ++ photoNote item.id }
        else item
      (200, some result, st)

/-! ### SQL-backed variant (`src/main.js`)

The `items` table is modelled as the same `MemState`: `inventory` is the list
of rows in insertion order, `nextId` the `SERIAL` sequence value.  A SQL
statement `WHERE id = $1` touches every matching row; `rows[0]` is the first
matching row. -/

/-- `COALESCE($k, col)`: a JS `undefined` binding reaches PostgreSQL as `NULL`
and keeps the old column value; any string — including `''` — replaces it. -/
def coalesce (x : Option String) (col : String) : String :=
  x.getD col

/-- `SELECT * FROM items WHERE id = $1` followed by `rows[0]`. -/
def sqlSelect (inv : List Item) (itemId : Nat) : Option Item :=
  inv.find? (fun i => i.id == itemId)

/-- `app.post('/register')` handler body (`main.js` lines 89–116): `400` on
falsy `inventory_name`, else
`INSERT INTO items (name, description, photo) VALUES ($1, $2 || '', $3) RETURNING *`
with the sequence assigning the id, answered `201` with the new row. -/
def registerSql (st : MemState) (inventory_name description : Option String)
    (photo : Option String) : Nat × Option Item × MemState :=
  if !(jsTruthy inventory_name) then (400, none, st)
  else
    let newItem : Item :=
      { id := st.nextId, name := jsOr inventory_name "",
        description := jsOr description "", photo := photo }
    (201, some newItem,
      { st with inventory := st.inventory ++ [newItem], nextId := st.nextId + 1 })

/-- `POST /register` against the SQL variant as a whole request. -/
def registerSqlReq (st : MemState) (inventory_name description : Option String)
    (file : Option String) : Nat × Option Item × MemState :=
  registerSql (multerSave st file) inventory_name description file

/-- Insertion into a list kept in ascending id order, for `ORDER BY id ASC`. -/
def insertById (item : Item) : List Item → List Item
  | [] => [item]
  | it :: rest =>
      if item.id ≤ it.id then item :: it :: rest else it :: insertById item rest

/-- `SELECT * FROM items ORDER BY id ASC`. -/
def sortById : List Item → List Item
  | [] => []
  | it :: rest => insertById it (sortById rest)

/-- `app.get('/inventory')` (`main.js` lines 151–168). -/
def listSql (st : MemState) : Nat × List ItemWithLink :=
  (200, (sortById st.inventory).map withLink)

/-- `app.get('/inventory/:id')` (`main.js` lines 190–210). -/
def getByIdSql (st : MemState) (itemId : Nat) : Nat × Option ItemWithLink :=
  match sqlSelect st.inventory itemId with
  | none => (404, none)
  | some item => (200, some (withLink item))

/-- `app.put('/inventory/:id')` (`main.js` lines 245–272): `404` when the
check `SELECT` finds no row, else
`UPDATE items SET name = COALESCE($1, name), description = COALESCE($2, description) WHERE id = $3 RETURNING *`,
answered `200` with the first returned row. -/
def updateSql (st : MemState) (itemId : Nat) (name description : Option String) :
    Nat × Option Item × MemState :=
  match sqlSelect st.inventory itemId with
  | none => (404, none, st)
  | some _ =>
      let upd := fun (it : Item) =>
        if it.id == itemId then
          { it with name := coalesce name it.name,
                    description := coalesce description it.description }
        else it
      let newInv := st.inventory.map upd
      (200, sqlSelect newInv itemId, { st with inventory := newInv })

/-- `app.get('/inventory/:id/photo')` (`main.js` lines 299–319). -/
def getPhotoSql (st : MemState) (itemId : Nat) : Nat :=
  match sqlSelect st.inventory itemId with
  | none => 404
  | some item =>
      match item.photo with
      | none => 404
      | some p => if existsSync p st.disk then 200 else 404

/-- `app.put('/inventory/:id/photo')` handler body (`main.js` lines 354–386):
here the file check comes BEFORE the not-found check; on success the old file
is conditionally unlinked and `UPDATE items SET photo = $1 WHERE id = $2`
runs. -/
def replacePhotoSql (st : MemState) (itemId : Nat) (file : Option String) :
    Nat × MemState :=
  match file with
  | none => (400, st)
  | some newPath =>
      match sqlSelect st.inventory itemId with
      | none => (404, st)
      | some item =>
          let disk := cleanupPhoto item.photo st.disk
          (200, { st with
                    inventory := st.inventory.map (fun it =>
                      if it.id == itemId then { it with photo := some newPath } else it),
                    disk := disk })

/-- `PUT /inventory/:id/photo` against the SQL variant as a whole request. -/
def replacePhotoSqlReq (st : MemState) (itemId : Nat) (file : Option String) :
    Nat × MemState :=
  replacePhotoSql (multerSave st file) itemId file

/-- `app.delete('/inventory/:id')` (`main.js` lines 407–434): `404` when the
check `SELECT photo` finds no row, else `DELETE FROM items WHERE id = $1` and
conditional unlink of the first found row's photo. -/
def deleteSql (st : MemState) (itemId : Nat) : Nat × MemState :=
  match sqlSelect st.inventory itemId with
  | none => (404, st)
  | some itemToDelete =>
      (200, { st with
                inventory := st.inventory.filter (fun i => !(i.id == itemId)),
                disk := cleanupPhoto itemToDelete.photo st.disk })

/-- `app.post('/search')` (`main.js` lines 464–491): same shape as the
in-memory variant, reading the row with a `SELECT` and building the response
object `{ ...item }`. -/
def searchSql (st : MemState) (itemId : Nat) (includePhoto : Option String) :
    Nat × Option Item × MemState :=
  match sqlSelect st.inventory itemId with
  | none => (404, none, st)
  | some item =>
      let output :=
        if includePhoto == some "on" && item.photo.isSome then
          { item with description := item.description ++ photoNote item.id }
        else item
      (200, some output, st)

/-! ### Request sequences against the in-memory variant -/

/-- One state-changing request: register, field update, photo replace or item
delete (reads do not change the state). -/
inductive Op where
  | register (inventory_name description file : Option String)
  | update (itemId : Nat) (name description : Option String)
  | replacePhoto (itemId : Nat) (file : Option String)
  | deleteItem (itemId : Nat)
  deriving Repr, DecidableEq

/-- The uploaded file carried by a request, if any. -/
def opFile : Op → Option String
  | .register _ _ file => file
  | .replacePhoto _ file => file
  | _ => none

/-- State after handling one request in the in-memory variant. -/
def applyOp (st : MemState) : Op → MemState
  | .register nm ds file => (registerMemReq st nm ds file).2.2
  | .update itemId nm ds => (updateMem st itemId nm ds).2.2
  | .replacePhoto itemId file => (replacePhotoMemReq st itemId file).2
  | .deleteItem itemId => (deleteMem st itemId).2

/-- Multer stores each upload under a freshly generated collision-free name
inside the cache directory, so the path of an uploaded file never coincides
with a file already on disk. -/
def FreshFile (st : MemState) (op : Op) : Prop :=
  ∀ p, opFile op = some p → p ∉ st.disk

/-- The state the in-memory variant starts from:
`let inventory = []; let nextId = 1;` and an empty cache directory. -/
def initState : MemState := { inventory := [], nextId := 1, disk := [] }

/-- States reachable from the initial state by any sequence of
register / update / replace-photo / delete requests. -/
inductive Reachable : MemState → Prop
  | init : Reachable initState
  | step {st : MemState} (op : Op) (h : Reachable st) (hf : FreshFile st op) :
      Reachable (applyOp st op)

/-- Every photo path referenced by an item denotes a file present on disk. -/
def PhotosOnDisk (inv : List Item) (disk : List String) : Prop :=
  ∀ it ∈ inv, ∀ p, it.photo = some p → p ∈ disk

/-- The state invariant: referenced photo files exist, no two items share a
photo file, ids are pairwise distinct and below the counter. -/
def StateInv (st : MemState) : Prop :=
  PhotosOnDisk st.inventory st.disk ∧
  (st.inventory.filterMap Item.photo).Nodup ∧
  (st.inventory.map Item.id).Nodup ∧
  ∀ it ∈ st.inventory, it.id < st.nextId

/-! ### Helper lemmas about the list primitives -/

theorem applyUpdate_photo (name description : Option String) (it : Item) :
    (applyUpdate name description it).photo = it.photo := by
  unfold applyUpdate
  by_cases h1 : jsTruthy name = true <;> by_cases h2 : jsTruthy description = true <;>
    simp [h1, h2]

theorem applyUpdate_id (name description : Option String) (it : Item) :
    (applyUpdate name description it).id = it.id := by
  unfold applyUpdate
  by_cases h1 : jsTruthy name = true <;> by_cases h2 : jsTruthy description = true <;>
    simp [h1, h2]

theorem find?_decomp {inv : List Item} {itemId : Nat} {item : Item}
    (h : inv.find? (fun i => i.id == itemId) = some item) :
    ∃ l1 l2, inv = l1 ++ item :: l2 ∧ (∀ x ∈ l1, (x.id == itemId) = false) ∧
      (item.id == itemId) = true := by
  induction inv with
  | nil => simp [List.find?] at h
  | cons a rest ih =>
      by_cases ha : (a.id == itemId) = true
      · rw [@List.find?_cons_of_pos Item (fun i => i.id == itemId) a rest ha] at h
        obtain rfl : a = item := by injection h
        exact ⟨[], rest, rfl, by simp, ha⟩
      · rw [@List.find?_cons_of_neg Item (fun i => i.id == itemId) a rest ha] at h
        obtain ⟨l1, l2, rfl, hl1, hit⟩ := ih h
        refine ⟨a :: l1, l2, rfl, ?_, hit⟩
        intro x hx
        rcases List.mem_cons.mp hx with rfl | hx
        · exact Bool.not_eq_true _ ▸ (by simpa using ha)
        · exact hl1 x hx

theorem updateFirst_append (l1 : List Item) (item : Item) (l2 : List Item)
    (itemId : Nat) (f : Item → Item)
    (h1 : ∀ x ∈ l1, (x.id == itemId) = false) (hid : (item.id == itemId) = true) :
    updateFirst (l1 ++ item :: l2) itemId f = l1 ++ f item :: l2 := by
  induction l1 with
  | nil => simp [updateFirst, hid]
  | cons a rest ih =>
      have ha := h1 a (by simp)
      simp only [List.cons_append, updateFirst, ha]
      simp only [Bool.false_eq_true, if_false, List.cons.injEq, true_and]
      exact ih (fun x hx => h1 x (by simp [hx]))

theorem removeFirst_decomp {inv : List Item} {itemId : Nat} {item : Item} {rest : List Item}
    (h : removeFirst inv itemId = (some item, rest)) :
    ∃ l1 l2, inv = l1 ++ item :: l2 ∧ rest = l1 ++ l2 ∧
      (∀ x ∈ l1, (x.id == itemId) = false) ∧ (item.id == itemId) = true := by
  induction inv generalizing rest with
  | nil => simp [removeFirst] at h
  | cons a tl ih =>
      by_cases ha : (a.id == itemId) = true
      · rw [removeFirst, if_pos ha] at h
        obtain ⟨h1, h2⟩ := Prod.mk.injEq _ _ _ _ ▸ h
        obtain rfl : a = item := by injection h1
        exact ⟨[], tl, rfl, by simpa using h2.symm, by simp, ha⟩
      · rw [removeFirst, if_neg ha] at h
        simp only [Prod.mk.injEq] at h
        obtain ⟨h1, h2⟩ := h
        obtain ⟨tl', hr⟩ : ∃ tl', removeFirst tl itemId = (some item, tl') :=
          ⟨(removeFirst tl itemId).2, by rw [← h1]⟩
        obtain ⟨l1, l2, rfl, hrest, hl1, hit⟩ := ih hr
        refine ⟨a :: l1, l2, rfl, ?_, ?_, hit⟩
        · rw [← h2, hr, hrest]; simp
        · intro x hx
          rcases List.mem_cons.mp hx with rfl | hx
          · simpa using ha
          · exact hl1 x hx

theorem removeFirst_fst_none {inv : List Item} {itemId : Nat}
    (h : (removeFirst inv itemId).1 = none) :
    (removeFirst inv itemId).2 = inv ∧ ∀ x ∈ inv, (x.id == itemId) = false := by
  induction inv with
  | nil => simp [removeFirst]
  | cons a tl ih =>
      by_cases ha : (a.id == itemId) = true
      · rw [removeFirst, if_pos ha] at h
        simp at h
      · rw [removeFirst, if_neg ha] at h ⊢
        obtain ⟨h2, hall⟩ := ih h
        refine ⟨by simpa using h2, ?_⟩
        intro x hx
        rcases List.mem_cons.mp hx with rfl | hx
        · simpa using ha
        · exact hall x hx

/-! ### Branch characterizations of the handlers -/

theorem multerSave_inventory (st : MemState) (file : Option String) :
    (multerSave st file).inventory = st.inventory := by
  cases file <;> rfl

theorem multerSave_nextId (st : MemState) (file : Option String) :
    (multerSave st file).nextId = st.nextId := by
  cases file <;> rfl

theorem cleanupPhoto_none (disk : List String) : cleanupPhoto none disk = disk := rfl

theorem cleanupPhoto_some_mem {p : String} {disk : List String} (h : p ∈ disk) :
    cleanupPhoto (some p) disk = disk.erase p := by
  simp [cleanupPhoto, existsSync, unlinkSync, h, Except.toOption]

theorem cleanupPhoto_some_notMem {p : String} {disk : List String} (h : p ∉ disk) :
    cleanupPhoto (some p) disk = disk := by
  simp [cleanupPhoto, existsSync, h]

theorem registerMem_fail {nm : Option String} (st : MemState) (ds photo : Option String)
    (h : jsTruthy nm = false) : registerMem st nm ds photo = (400, none, st) := by
  simp [registerMem, h]

theorem registerMem_success {nm : Option String} (st : MemState) (ds photo : Option String)
    (h : jsTruthy nm = true) :
    registerMem st nm ds photo =
      (201, some ⟨st.nextId, jsOr nm "", jsOr ds "", photo⟩,
        { st with
            inventory := st.inventory ++ [⟨st.nextId, jsOr nm "", jsOr ds "", photo⟩],
            nextId := st.nextId + 1 }) := by
  simp [registerMem, h]

theorem updateMem_notFound {st : MemState} {itemId : Nat} (nm ds : Option String)
    (hfind : st.inventory.find? (fun i => i.id == itemId) = none) :
    updateMem st itemId nm ds = (404, none, st) := by
  unfold updateMem; rw [hfind]

theorem updateMem_found {st : MemState} {itemId : Nat} {item : Item} (nm ds : Option String)
    (hfind : st.inventory.find? (fun i => i.id == itemId) = some item) :
    updateMem st itemId nm ds =
      (200, some (applyUpdate nm ds item),
        { st with inventory := updateFirst st.inventory itemId (applyUpdate nm ds) }) := by
  unfold updateMem; rw [hfind]

theorem replacePhotoMem_notFound {st : MemState} {itemId : Nat} (file : Option String)
    (hfind : st.inventory.find? (fun i => i.id == itemId) = none) :
    replacePhotoMem st itemId file = (404, st) := by
  unfold replacePhotoMem; rw [hfind]

theorem replacePhotoMem_noFile {st : MemState} {itemId : Nat} {item : Item}
    (hfind : st.inventory.find? (fun i => i.id == itemId) = some item) :
    replacePhotoMem st itemId none = (400, st) := by
  unfold replacePhotoMem; rw [hfind]

theorem replacePhotoMem_success {st : MemState} {itemId : Nat} {item : Item} (newPath : String)
    (hfind : st.inventory.find? (fun i => i.id == itemId) = some item) :
    replacePhotoMem st itemId (some newPath) =
      (200, { st with
                inventory := updateFirst st.inventory itemId
                  (fun it => { it with photo := some newPath }),
                disk := cleanupPhoto item.photo st.disk }) := by
  unfold replacePhotoMem; rw [hfind]

theorem deleteMem_notFound {st : MemState} {itemId : Nat} {rest : List Item}
    (h : removeFirst st.inventory itemId = (none, rest)) :
    deleteMem st itemId = (404, st) := by
  unfold deleteMem; rw [h]

theorem deleteMem_found {st : MemState} {itemId : Nat} {d : Item} {rest : List Item}
    (h : removeFirst st.inventory itemId = (some d, rest)) :
    deleteMem st itemId =
      (200, { st with inventory := rest, disk := cleanupPhoto d.photo st.disk }) := by
  unfold deleteMem; rw [h]

theorem getByIdMem_found {st : MemState} {itemId : Nat} {item : Item}
    (hfind : st.inventory.find? (fun i => i.id == itemId) = some item) :
    getByIdMem st itemId = (200, some (withLink item)) := by
  unfold getByIdMem; rw [hfind]

theorem getPhotoMem_notFound {st : MemState} {itemId : Nat}
    (hfind : st.inventory.find? (fun i => i.id == itemId) = none) :
    getPhotoMem st itemId = 404 := by
  unfold getPhotoMem; rw [hfind]

theorem searchMem_found {st : MemState} {itemId : Nat} {item : Item} (includePhoto : Option String)
    (hfind : st.inventory.find? (fun i => i.id == itemId) = some item) :
    searchMem st itemId includePhoto =
      (200, some (if includePhoto == some "on" && item.photo.isSome then
          { item with description := item.description ++ photoNote item.id }
        else item), st) := by
  unfold searchMem; rw [hfind]

/-! ### Preservation of the state invariant -/

theorem photo_mem_filterMap {x : Item} {l : List Item} {r : String}
    (hx : x ∈ l) (hr : x.photo = some r) : r ∈ l.filterMap Item.photo :=
  List.mem_filterMap.mpr ⟨x, hx, hr⟩

theorem filterMap_subset_disk {l : List Item} {disk : List String}
    (h : PhotosOnDisk l disk) : ∀ r ∈ l.filterMap Item.photo, r ∈ disk := by
  intro r hr
  obtain ⟨x, hx, hxr⟩ := List.mem_filterMap.mp hr
  exact h x hx r hxr

theorem photos_middle {l1 l2 : List Item} {item : Item} {q : String}
    (hphoto : item.photo = some q)
    (h2 : ((l1 ++ item :: l2).filterMap Item.photo).Nodup) :
    q ∉ l1.filterMap Item.photo ∧ q ∉ l2.filterMap Item.photo ∧
      (l1.filterMap Item.photo ++ l2.filterMap Item.photo).Nodup := by
  simp only [List.filterMap_append, List.filterMap_cons, hphoto] at h2
  rw [List.nodup_middle, List.nodup_cons] at h2
  obtain ⟨hq, hnd⟩ := h2
  rw [List.mem_append] at hq
  exact ⟨fun h => hq (Or.inl h), fun h => hq (Or.inr h), hnd⟩

theorem stateInv_growDisk {st : MemState} (p : String) (hinv : StateInv st) :
    StateInv { st with disk := p :: st.disk } := by
  obtain ⟨h1, h2, h3, h4⟩ := hinv
  exact ⟨fun it hit q hq => List.mem_cons_of_mem _ (h1 it hit q hq), h2, h3, h4⟩

theorem stateInv_multerSave {st : MemState} (file : Option String) (hinv : StateInv st) :
    StateInv (multerSave st file) := by
  cases file with
  | none => exact hinv
  | some p => exact stateInv_growDisk p hinv

theorem stateInv_push {st : MemState} (nm ds : String) (file : Option String)
    (hinv : StateInv st) (hf : ∀ p, file = some p → p ∉ st.disk) :
    StateInv { inventory := st.inventory ++ [⟨st.nextId, nm, ds, file⟩],
               nextId := st.nextId + 1, disk := (multerSave st file).disk } := by
  obtain ⟨h1, h2, h3, h4⟩ := hinv
  refine ⟨?_, ?_, ?_, ?_⟩
  · intro it hit q hq
    rcases List.mem_append.mp hit with hit | hit
    · have hmem := h1 it hit q hq
      cases file with
      | none => exact hmem
      | some p => exact List.mem_cons_of_mem _ hmem
    · rw [List.mem_singleton] at hit
      subst hit
      cases file with
      | none => simp at hq
      | some p =>
          obtain rfl : p = q := by injection hq
          exact List.mem_cons_self _ _
  · rw [List.filterMap_append]
    cases hfile : file with
    | none => simpa using h2
    | some p =>
        have hp : p ∉ st.disk := hf p hfile
        have hnotin : p ∉ st.inventory.filterMap Item.photo := by
          intro hmem
          exact hp (filterMap_subset_disk h1 p hmem)
        rw [List.nodup_append]
        refine ⟨h2, by simp, ?_⟩
        intro a ha hb
        simp at hb
        subst hb
        exact hnotin ha
  · rw [List.map_append, List.nodup_append]
    refine ⟨h3, by simp, ?_⟩
    intro a ha hb
    simp at hb
    subst hb
    obtain ⟨it, hit, hid⟩ := List.mem_map.mp ha
    exact absurd (hid ▸ h4 it hit) (lt_irrefl _)
  · intro it hit
    rcases List.mem_append.mp hit with hit | hit
    · exact Nat.lt_trans (h4 it hit) (Nat.lt_succ_self _)
    · rw [List.mem_singleton] at hit
      subst hit
      exact Nat.lt_succ_self _

theorem stateInv_registerMemReq {st : MemState} (nm ds file : Option String)
    (hinv : StateInv st) (hf : ∀ p, file = some p → p ∉ st.disk) :
    StateInv (registerMemReq st nm ds file).2.2 := by
  by_cases hn : jsTruthy nm = true
  · rw [registerMemReq, registerMem_success _ _ _ hn, multerSave_inventory, multerSave_nextId]
    exact stateInv_push _ _ _ hinv hf
  · rw [registerMemReq, registerMem_fail _ _ _ (by simpa using hn)]
    exact stateInv_multerSave file hinv

theorem stateInv_updateMem {st : MemState} (itemId : Nat) (nm ds : Option String)
    (hinv : StateInv st) : StateInv (updateMem st itemId nm ds).2.2 := by
  obtain ⟨h1, h2, h3, h4⟩ := hinv
  cases hfind : st.inventory.find? (fun i => i.id == itemId) with
  | none => rw [updateMem_notFound _ _ hfind]; exact ⟨h1, h2, h3, h4⟩
  | some item =>
      rw [updateMem_found nm ds hfind]
      obtain ⟨l1, l2, hdec, hl1, hid⟩ := find?_decomp hfind
      rw [hdec] at h1 h2 h3 h4
      rw [hdec, updateFirst_append l1 item l2 itemId _ hl1 hid]
      refine ⟨?_, ?_, ?_, ?_⟩
      · intro it hit q hq
        rcases List.mem_append.mp hit with hit | hit
        · exact h1 it (List.mem_append_left _ hit) q hq
        · rcases List.mem_cons.mp hit with rfl | hit
          · rw [applyUpdate_photo] at hq
            exact h1 item (List.mem_append_right _ (List.mem_cons_self _ _)) q hq
          · exact h1 it (List.mem_append_right _ (List.mem_cons_of_mem _ hit)) q hq
      · simp only [List.filterMap_append, List.filterMap_cons, applyUpdate_photo] at h2 ⊢
        exact h2
      · simp only [List.map_append, List.map_cons, applyUpdate_id] at h3 ⊢
        exact h3
      · intro it hit
        rcases List.mem_append.mp hit with hit | hit
        · exact h4 it (List.mem_append_left _ hit)
        · rcases List.mem_cons.mp hit with rfl | hit
          · rw [applyUpdate_id]
            exact h4 item (List.mem_append_right _ (List.mem_cons_self _ _))
          · exact h4 it (List.mem_append_right _ (List.mem_cons_of_mem _ hit))

theorem stateInv_replaceSuccess {st : MemState} {itemId : Nat} {item : Item} (p : String)
    (hinv : StateInv st) (hp : p ∉ st.disk)
    (hfind : st.inventory.find? (fun i => i.id == itemId) = some item) :
    StateInv { inventory := updateFirst st.inventory itemId
                 (fun it => { it with photo := some p }),
               nextId := st.nextId,
               disk := cleanupPhoto item.photo (p :: st.disk) } := by
  obtain ⟨h1, h2, h3, h4⟩ := hinv
  obtain ⟨l1, l2, hdec, hl1, hid⟩ := find?_decomp hfind
  have hitem : item ∈ st.inventory := List.mem_of_find?_eq_some hfind
  have hsub1 : ∀ r ∈ l1.filterMap Item.photo, r ∈ st.disk := by
    intro r hr
    obtain ⟨x, hx, hxr⟩ := List.mem_filterMap.mp hr
    exact h1 x (hdec ▸ List.mem_append_left _ hx) r hxr
  have hsub2 : ∀ r ∈ l2.filterMap Item.photo, r ∈ st.disk := by
    intro r hr
    obtain ⟨x, hx, hxr⟩ := List.mem_filterMap.mp hr
    exact h1 x (hdec ▸ List.mem_append_right _ (List.mem_cons_of_mem _ hx)) r hxr
  rw [hdec] at h1 h2 h3 h4
  rw [hdec, updateFirst_append l1 item l2 itemId _ hl1 hid]
  cases hphoto : item.photo with
  | none =>
      rw [cleanupPhoto_none]
      refine ⟨?_, ?_, ?_, ?_⟩
      · intro it hit q hq
        rcases List.mem_append.mp hit with hit | hit
        · exact List.mem_cons_of_mem _ (h1 it (List.mem_append_left _ hit) q hq)
        · rcases List.mem_cons.mp hit with rfl | hit
          · obtain rfl : p = q := by injection hq
            exact List.mem_cons_self _ _
          · exact List.mem_cons_of_mem _
              (h1 it (List.mem_append_right _ (List.mem_cons_of_mem _ hit)) q hq)
      · simp only [List.filterMap_append, List.filterMap_cons, hphoto] at h2 ⊢
        rw [List.nodup_middle, List.nodup_cons]
        refine ⟨?_, h2⟩
        rw [List.mem_append]
        rintro (hmem | hmem)
        · exact hp (hsub1 p hmem)
        · exact hp (hsub2 p hmem)
      · simpa only [List.map_append, List.map_cons] using h3
      · intro it hit
        rcases List.mem_append.mp hit with hit | hit
        · exact h4 it (List.mem_append_left _ hit)
        · rcases List.mem_cons.mp hit with rfl | hit
          · exact h4 item (List.mem_append_right _ (List.mem_cons_self _ _))
          · exact h4 it (List.mem_append_right _ (List.mem_cons_of_mem _ hit))
  | some q =>
      obtain ⟨hq1, hq2, hqnd⟩ := photos_middle hphoto h2
      have hqd : q ∈ st.disk :=
        h1 item (List.mem_append_right _ (List.mem_cons_self _ _)) q hphoto
      have hqp : ¬(p == q) = true := by
        simp only [beq_iff_eq]
        rintro rfl
        exact hp hqd
      rw [cleanupPhoto_some_mem (List.mem_cons_of_mem _ hqd), List.erase_cons_tail hqp]
      refine ⟨?_, ?_, ?_, ?_⟩
      · intro it hit r hr
        rcases List.mem_append.mp hit with hm | hm
        · have hrd : r ∈ st.disk := h1 it (List.mem_append_left _ hm) r hr
          have hrq : r ≠ q := fun he =>
            hq1 (he ▸ photo_mem_filterMap hm hr)
          exact List.mem_cons_of_mem _ ((List.mem_erase_of_ne hrq).mpr hrd)
        · rcases List.mem_cons.mp hm with rfl | hm
          · obtain rfl : p = r := by injection hr
            exact List.mem_cons_self _ _
          · have hrd : r ∈ st.disk :=
              h1 it (List.mem_append_right _ (List.mem_cons_of_mem _ hm)) r hr
            have hrq : r ≠ q := fun he =>
              hq2 (he ▸ photo_mem_filterMap hm hr)
            exact List.mem_cons_of_mem _ ((List.mem_erase_of_ne hrq).mpr hrd)
      · simp only [List.filterMap_append, List.filterMap_cons]
        rw [List.nodup_middle, List.nodup_cons]
        refine ⟨?_, hqnd⟩
        rw [List.mem_append]
        rintro (hmem | hmem)
        · exact hp (hsub1 p hmem)
        · exact hp (hsub2 p hmem)
      · simpa only [List.map_append, List.map_cons] using h3
      · intro it hit
        rcases List.mem_append.mp hit with hit | hit
        · exact h4 it (List.mem_append_left _ hit)
        · rcases List.mem_cons.mp hit with rfl | hit
          · exact h4 item (List.mem_append_right _ (List.mem_cons_self _ _))
          · exact h4 it (List.mem_append_right _ (List.mem_cons_of_mem _ hit))

theorem stateInv_replacePhotoMemReq {st : MemState} (itemId : Nat) (file : Option String)
    (hinv : StateInv st) (hf : ∀ p, file = some p → p ∉ st.disk) :
    StateInv (replacePhotoMemReq st itemId file).2 := by
  cases file with
  | none =>
      rw [replacePhotoMemReq]
      cases hfind : st.inventory.find? (fun i => i.id == itemId) with
      | none => rw [show multerSave st none = st from rfl, replacePhotoMem_notFound _ hfind]
                exact hinv
      | some item => rw [show multerSave st none = st from rfl, replacePhotoMem_noFile hfind]
                     exact hinv
  | some p =>
      have hp : p ∉ st.disk := hf p rfl
      rw [replacePhotoMemReq]
      cases hfind : (multerSave st (some p)).inventory.find? (fun i => i.id == itemId) with
      | none =>
          rw [replacePhotoMem_notFound _ hfind]
          exact stateInv_multerSave _ hinv
      | some item =>
          rw [replacePhotoMem_success p hfind]
          have hfind' : st.inventory.find? (fun i => i.id == itemId) = some item := hfind
          exact stateInv_replaceSuccess p hinv hp hfind'

theorem stateInv_deleteMem {st : MemState} (itemId : Nat) (hinv : StateInv st) :
    StateInv (deleteMem st itemId).2 := by
  obtain ⟨h1, h2, h3, h4⟩ := hinv
  cases hrem : removeFirst st.inventory itemId with
  | mk o rest =>
    cases o with
    | none => rw [deleteMem_notFound hrem]; exact ⟨h1, h2, h3, h4⟩
    | some d =>
        rw [deleteMem_found hrem]
        obtain ⟨l1, l2, hdec, hrest, hl1, hid⟩ := removeFirst_decomp hrem
        subst hrest
        have hd : d ∈ st.inventory := by
          rw [hdec]; exact List.mem_append_right _ (List.mem_cons_self _ _)
        have hsubl : (l1 ++ l2).Sublist st.inventory := by
          rw [hdec]
          exact List.Sublist.append_left (List.sublist_cons_self d l2) l1
        cases hphoto : d.photo with
        | none =>
            rw [cleanupPhoto_none]
            refine ⟨?_, ?_, ?_, ?_⟩
            · intro it hit q hq
              exact h1 it (hsubl.mem hit) q hq
            · exact h2.sublist (hsubl.filterMap Item.photo)
            · exact h3.sublist (hsubl.map Item.id)
            · intro it hit
              exact h4 it (hsubl.mem hit)
        | some q =>
            have hqd : q ∈ st.disk := h1 d hd q hphoto
            rw [cleanupPhoto_some_mem hqd]
            rw [hdec] at h2
            obtain ⟨hq1, hq2, hqnd⟩ := photos_middle hphoto h2
            refine ⟨?_, ?_, ?_, ?_⟩
            · intro it hit r hr
              have hrd : r ∈ st.disk := h1 it (hsubl.mem hit) r hr
              have hrq : r ≠ q := by
                rintro rfl
                rcases List.mem_append.mp hit with hit | hit
                · exact hq1 (photo_mem_filterMap hit hr)
                · exact hq2 (photo_mem_filterMap hit hr)
              exact (List.mem_erase_of_ne hrq).mpr hrd
            · rw [List.filterMap_append]
              exact hqnd
            · exact h3.sublist (hsubl.map Item.id)
            · intro it hit
              exact h4 it (hsubl.mem hit)

theorem stateInv_applyOp {st : MemState} (op : Op) (hinv : StateInv st)
    (hf : FreshFile st op) : StateInv (applyOp st op) := by
  cases op with
  | register nm ds file => exact stateInv_registerMemReq nm ds file hinv hf
  | update itemId nm ds => exact stateInv_updateMem itemId nm ds hinv
  | replacePhoto itemId file => exact stateInv_replacePhotoMemReq itemId file hinv hf
  | deleteItem itemId => exact stateInv_deleteMem itemId hinv

theorem reachable_stateInv {st : MemState} (h : Reachable st) : StateInv st := by
  induction h with
  | init =>
      refine ⟨?_, ?_, ?_, ?_⟩ <;> simp [initState, PhotosOnDisk]
  | step op h hf ih => exact stateInv_applyOp op ih hf

/-- The frame half of the lifecycle invariant: an operation that is neither a
delete of item `i` nor a photo replace on item `i` keeps `i`'s photo
reference intact. -/
def touchesPhotoOf (op : Op) (i : Nat) : Bool :=
  match op with
  | .deleteItem j => j == i
  | .replacePhoto j file => j == i && file.isSome
  | _ => false

theorem photo_frame {st : MemState} {it : Item} {p : String} (op : Op)
    (hit : it ∈ st.inventory) (hp : it.photo = some p)
    (hop : touchesPhotoOf op it.id = false) :
    ∃ it' ∈ (applyOp st op).inventory, it'.id = it.id ∧ it'.photo = some p := by
  cases op with
  | register nm ds file =>
      by_cases hn : jsTruthy nm = true
      · rw [applyOp, registerMemReq, registerMem_success _ _ _ hn]
        refine ⟨it, ?_, rfl, hp⟩
        rw [multerSave_inventory] at *
        exact List.mem_append_left _ hit
      · rw [applyOp, registerMemReq, registerMem_fail _ _ _ (by simpa using hn)]
        refine ⟨it, ?_, rfl, hp⟩
        rw [multerSave_inventory]
        exact hit
  | update j nm ds =>
      cases hfind : st.inventory.find? (fun i => i.id == j) with
      | none =>
          rw [applyOp, updateMem_notFound _ _ hfind]
          exact ⟨it, hit, rfl, hp⟩
      | some item =>
          rw [applyOp, updateMem_found _ _ hfind]
          obtain ⟨l1, l2, hdec, hl1, hid⟩ := find?_decomp hfind
          rw [hdec, updateFirst_append l1 item l2 j _ hl1 hid]
          rw [hdec] at hit
          rcases List.mem_append.mp hit with hm | hm
          · exact ⟨it, List.mem_append_left _ hm, rfl, hp⟩
          · rcases List.mem_cons.mp hm with rfl | hm
            · exact ⟨applyUpdate nm ds it,
                List.mem_append_right _ (List.mem_cons_self _ _),
                applyUpdate_id _ _ _, (applyUpdate_photo _ _ _).trans hp⟩
            · exact ⟨it, List.mem_append_right _ (List.mem_cons_of_mem _ hm), rfl, hp⟩
  | replacePhoto j file =>
      cases file with
      | none =>
          rw [applyOp, replacePhotoMemReq]
          cases hfind : st.inventory.find? (fun i => i.id == j) with
          | none =>
              rw [show multerSave st none = st from rfl, replacePhotoMem_notFound _ hfind]
              exact ⟨it, hit, rfl, hp⟩
          | some item =>
              rw [show multerSave st none = st from rfl, replacePhotoMem_noFile hfind]
              exact ⟨it, hit, rfl, hp⟩
      | some newPath =>
          have hj : (j == it.id) = false := by simpa [touchesPhotoOf] using hop
          rw [applyOp, replacePhotoMemReq]
          cases hfind : (multerSave st (some newPath)).inventory.find? (fun i => i.id == j) with
          | none =>
              rw [replacePhotoMem_notFound _ hfind]
              exact ⟨it, hit, rfl, hp⟩
          | some item =>
              rw [replacePhotoMem_success newPath hfind]
              have hfind' : st.inventory.find? (fun i => i.id == j) = some item := hfind
              obtain ⟨l1, l2, hdec, hl1, hid⟩ := find?_decomp hfind'
              rw [multerSave_inventory, hdec, updateFirst_append l1 item l2 j _ hl1 hid]
              rw [hdec] at hit
              rcases List.mem_append.mp hit with hm | hm
              · exact ⟨it, List.mem_append_left _ hm, rfl, hp⟩
              · rcases List.mem_cons.mp hm with rfl | hm
                · exfalso
                  have hij : it.id = j := by simpa using hid
                  simp [hij] at hj
                · exact ⟨it, List.mem_append_right _ (List.mem_cons_of_mem _ hm), rfl, hp⟩
  | deleteItem j =>
      have hj : (j == it.id) = false := by simpa [touchesPhotoOf] using hop
      cases hrem : removeFirst st.inventory j with
      | mk o rest =>
        cases o with
        | none =>
            rw [applyOp, deleteMem_notFound hrem]
            exact ⟨it, hit, rfl, hp⟩
        | some d =>
            rw [applyOp, deleteMem_found hrem]
            obtain ⟨l1, l2, hdec, hrest, hl1, hid⟩ := removeFirst_decomp hrem
            subst hrest
            rw [hdec] at hit
            rcases List.mem_append.mp hit with hm | hm
            · exact ⟨it, List.mem_append_left _ hm, rfl, hp⟩
            · rcases List.mem_cons.mp hm with rfl | hm
              · exfalso
                have hij : it.id = j := by simpa using hid
                simp [hij] at hj
              · exact ⟨it, List.mem_append_right _ hm, rfl, hp⟩

/-- **C3** (invariants): in every state reachable by any sequence of register,
update, replace-photo and delete requests, every item whose photo path is
non-null references a file that exists on disk; and an operation that neither
deletes the item nor replaces its photo leaves the item's photo reference in
place, still backed by a file on disk. -/
theorem c3_photoPath_always_on_disk {st : MemState} (h : Reachable st) :
    (∀ it ∈ st.inventory, ∀ p, it.photo = some p → p ∈ st.disk) ∧
    (∀ op, FreshFile st op → ∀ it ∈ st.inventory, ∀ p, it.photo = some p →
      touchesPhotoOf op it.id = false →
      ∃ it' ∈ (applyOp st op).inventory, it'.id = it.id ∧ it'.photo = some p ∧
        p ∈ (applyOp st op).disk) := by
  have hinv := reachable_stateInv h
  refine ⟨hinv.1, ?_⟩
  intro op hf it hit p hp hop
  obtain ⟨it', hit', hid', hp'⟩ := photo_frame op hit hp hop
  have hinv' := reachable_stateInv (Reachable.step op h hf)
  exact ⟨it', hit', hid', hp', hinv'.1 it' hit' p hp'⟩

/-- A request that registers one item together with an uploaded photo file. -/
def demoOp : Op := Op.register (some "Laptop") (some "16GB RAM") (some "/cache/photo1")

/-- The state after serving `demoOp` from the initial state. -/
def demoState : MemState := applyOp initState demoOp

/-- Witness for C3 at a concrete reachable state holding one item with a
photo. -/
theorem c3_photoPath_always_on_disk_witness :
    (∀ it ∈ demoState.inventory, ∀ p, it.photo = some p → p ∈ demoState.disk) ∧
    (∀ op, FreshFile demoState op → ∀ it ∈ demoState.inventory, ∀ p, it.photo = some p →
      touchesPhotoOf op it.id = false →
      ∃ it' ∈ (applyOp demoState op).inventory, it'.id = it.id ∧ it'.photo = some p ∧
        p ∈ (applyOp demoState op).disk) :=
  c3_photoPath_always_on_disk
    (Reachable.step demoOp Reachable.init (fun _ _ => by simp [initState]))

/-! ### Branch characterizations, SQL variant -/

theorem updateSql_notFound {st : MemState} {itemId : Nat} (nm ds : Option String)
    (hfind : st.inventory.find? (fun i => i.id == itemId) = none) :
    updateSql st itemId nm ds = (404, none, st) := by
  unfold updateSql sqlSelect; rw [hfind]

theorem updateSql_found {st : MemState} {itemId : Nat} {item : Item} (nm ds : Option String)
    (hfind : st.inventory.find? (fun i => i.id == itemId) = some item) :
    updateSql st itemId nm ds =
      (200,
       sqlSelect (st.inventory.map (fun it =>
         if it.id == itemId then
           { it with name := coalesce nm it.name,
                     description := coalesce ds it.description }
         else it)) itemId,
       { st with inventory := st.inventory.map (fun it =>
           if it.id == itemId then
             { it with name := coalesce nm it.name,
                       description := coalesce ds it.description }
           else it) }) := by
  unfold updateSql sqlSelect
  rw [hfind]

theorem replacePhotoSql_noFile (st : MemState) (itemId : Nat) :
    replacePhotoSql st itemId none = (400, st) := rfl

theorem replacePhotoSql_notFound {st : MemState} {itemId : Nat} (newPath : String)
    (hfind : st.inventory.find? (fun i => i.id == itemId) = none) :
    replacePhotoSql st itemId (some newPath) = (404, st) := by
  unfold replacePhotoSql sqlSelect; rw [hfind]

theorem replacePhotoSql_success {st : MemState} {itemId : Nat} {item : Item} (newPath : String)
    (hfind : st.inventory.find? (fun i => i.id == itemId) = some item) :
    replacePhotoSql st itemId (some newPath) =
      (200, { st with
                inventory := st.inventory.map (fun it =>
                  if it.id == itemId then { it with photo := some newPath } else it),
                disk := cleanupPhoto item.photo st.disk }) := by
  unfold replacePhotoSql sqlSelect; rw [hfind]

theorem deleteSql_notFound {st : MemState} {itemId : Nat}
    (hfind : st.inventory.find? (fun i => i.id == itemId) = none) :
    deleteSql st itemId = (404, st) := by
  unfold deleteSql sqlSelect; rw [hfind]

theorem deleteSql_found {st : MemState} {itemId : Nat} {item : Item}
    (hfind : st.inventory.find? (fun i => i.id == itemId) = some item) :
    deleteSql st itemId =
      (200, { st with
                inventory := st.inventory.filter (fun i => !(i.id == itemId)),
                disk := cleanupPhoto item.photo st.disk }) := by
  unfold deleteSql sqlSelect; rw [hfind]

theorem removeFirst_fst_eq_find? (inv : List Item) (i : Nat) :
    (removeFirst inv i).1 = inv.find? (fun x => x.id == i) := by
  induction inv with
  | nil => rfl
  | cons a rest ih =>
      by_cases ha : (a.id == i) = true
      · rw [removeFirst, if_pos ha, @List.find?_cons_of_pos _ (fun x => x.id == i) a rest ha]
      · rw [removeFirst, if_neg ha, @List.find?_cons_of_neg _ (fun x => x.id == i) a rest ha]
        simpa using ih

/-! ### C4 — the guarded unlink is total and removes exactly once -/

/-- **C4** (safety): the conditional cleanup
`if (photo && fs.existsSync(photo)) fs.unlinkSync(photo)` run by item delete
and photo replace never raises: it equals the pure `cleanupPhoto`, is a no-op
for a null path or an absent file, and with the file present removes exactly
one occurrence of it and nothing else. -/
theorem c4_cleanup_never_errors (photo : Option String) (disk : List String) :
    deletePhotoIfExists photo disk = Except.ok (cleanupPhoto photo disk) ∧
    (photo = none → cleanupPhoto photo disk = disk) ∧
    (∀ p, photo = some p → p ∉ disk → cleanupPhoto photo disk = disk) ∧
    (∀ p, photo = some p → p ∈ disk →
      (cleanupPhoto photo disk).count p = disk.count p - 1 ∧
      ∀ q, q ≠ p → (cleanupPhoto photo disk).count q = disk.count q) := by
  refine ⟨?_, ?_, ?_, ?_⟩
  · cases photo with
    | none => rfl
    | some p =>
        by_cases hm : p ∈ disk
        · simp [deletePhotoIfExists, cleanupPhoto, unlinkSync, existsSync, hm, Except.toOption]
        · simp [deletePhotoIfExists, cleanupPhoto, existsSync, hm]
  · rintro rfl; rfl
  · rintro p rfl hm
    exact cleanupPhoto_some_notMem hm
  · rintro p rfl hm
    rw [cleanupPhoto_some_mem hm]
    exact ⟨List.count_erase_self p disk, fun q hq => List.count_erase_of_ne hq disk⟩

/-- Witness for C4 at a concrete path and disk. -/
theorem c4_cleanup_never_errors_witness :
    deletePhotoIfExists (some "/cache/a") ["/cache/a", "/cache/b"] =
      Except.ok (cleanupPhoto (some "/cache/a") ["/cache/a", "/cache/b"]) ∧
    ((some "/cache/a" : Option String) = none →
      cleanupPhoto (some "/cache/a") ["/cache/a", "/cache/b"] = ["/cache/a", "/cache/b"]) ∧
    (∀ p, (some "/cache/a" : Option String) = some p → p ∉ ["/cache/a", "/cache/b"] →
      cleanupPhoto (some "/cache/a") ["/cache/a", "/cache/b"] = ["/cache/a", "/cache/b"]) ∧
    (∀ p, (some "/cache/a" : Option String) = some p → p ∈ ["/cache/a", "/cache/b"] →
      (cleanupPhoto (some "/cache/a") ["/cache/a", "/cache/b"]).count p =
        (["/cache/a", "/cache/b"] : List String).count p - 1 ∧
      ∀ q, q ≠ p → (cleanupPhoto (some "/cache/a") ["/cache/a", "/cache/b"]).count q =
        (["/cache/a", "/cache/b"] : List String).count q) :=
  c4_cleanup_never_errors (some "/cache/a") ["/cache/a", "/cache/b"]

/-! ### C6 — register with missing/empty name -/

/-- **C6** (error handling): a register request whose `inventory_name` is
absent or the empty string answers 400 and leaves the item records and the id
counter untouched, in both variants. -/
theorem c6_register_empty_name (st : MemState) (ds file : Option String)
    (nm : Option String) (h : nm = none ∨ nm = some "") :
    (registerMemReq st nm ds file).1 = 400 ∧
    (registerMemReq st nm ds file).2.2.inventory = st.inventory ∧
    (registerMemReq st nm ds file).2.2.nextId = st.nextId ∧
    (registerSqlReq st nm ds file).1 = 400 ∧
    (registerSqlReq st nm ds file).2.2.inventory = st.inventory ∧
    (registerSqlReq st nm ds file).2.2.nextId = st.nextId := by
  have hn : jsTruthy nm = false := by rcases h with rfl | rfl <;> rfl
  have hmem : registerMem (multerSave st file) nm ds file = (400, none, multerSave st file) :=
    registerMem_fail _ _ _ hn
  have hsql : registerSql (multerSave st file) nm ds file = (400, none, multerSave st file) := by
    simp [registerSql, hn]
  rw [registerMemReq, registerSqlReq, hmem, hsql]
  exact ⟨rfl, multerSave_inventory st file, multerSave_nextId st file,
    rfl, multerSave_inventory st file, multerSave_nextId st file⟩

/-- Witness for C6: registering with an empty name against a one-item store. -/
theorem c6_register_empty_name_witness :
    ((some "" : Option String) = none ∨ (some "" : Option String) = some "") ∧
    ((registerMemReq ⟨[⟨1, "A", "B", none⟩], 2, []⟩ (some "") (some "d") none).1 = 400 ∧
     (registerMemReq ⟨[⟨1, "A", "B", none⟩], 2, []⟩ (some "") (some "d") none).2.2.inventory =
       [⟨1, "A", "B", none⟩] ∧
     (registerMemReq ⟨[⟨1, "A", "B", none⟩], 2, []⟩ (some "") (some "d") none).2.2.nextId = 2 ∧
     (registerSqlReq ⟨[⟨1, "A", "B", none⟩], 2, []⟩ (some "") (some "d") none).1 = 400 ∧
     (registerSqlReq ⟨[⟨1, "A", "B", none⟩], 2, []⟩ (some "") (some "d") none).2.2.inventory =
       [⟨1, "A", "B", none⟩] ∧
     (registerSqlReq ⟨[⟨1, "A", "B", none⟩], 2, []⟩ (some "") (some "d") none).2.2.nextId = 2) :=
  ⟨Or.inr rfl,
    c6_register_empty_name ⟨[⟨1, "A", "B", none⟩], 2, []⟩ (some "d") none (some "") (Or.inr rfl)⟩

/-! ### C1 — partial update semantics -/

theorem map_updateFirst {α : Type} (g : Item → α) (inv : List Item) (i : Nat)
    (f : Item → Item) (hf : ∀ it, g (f it) = g it) :
    (updateFirst inv i f).map g = inv.map g := by
  induction inv with
  | nil => rfl
  | cons a rest ih =>
      by_cases ha : (a.id == i) = true
      · rw [updateFirst, if_pos ha]
        simp [hf]
      · rw [updateFirst, if_neg ha]
        simp only [List.map_cons, ih]

theorem map_comp_eq {α : Type} (g : Item → α) (f : Item → Item) (inv : List Item)
    (hf : ∀ it, g (f it) = g it) : (inv.map f).map g = inv.map g := by
  induction inv with
  | nil => rfl
  | cons a rest ih => simp only [List.map_cons, hf, ih]

theorem applyUpdate_name_of_falsy {nm : Option String} (ds : Option String) (it : Item)
    (h : jsTruthy nm = false) : (applyUpdate nm ds it).name = it.name := by
  unfold applyUpdate
  by_cases h2 : jsTruthy ds = true <;> simp [h, h2]

theorem applyUpdate_description_of_falsy {ds : Option String} (nm : Option String) (it : Item)
    (h : jsTruthy ds = false) : (applyUpdate nm ds it).description = it.description := by
  unfold applyUpdate
  by_cases h1 : jsTruthy nm = true <;> simp [h, h1]

/-- **C1 counterexample**: with one stored item named `"Laptop"`, a SQL-backed
update supplying `name: ""` overwrites the stored name with the empty string,
because `COALESCE('', name)` returns `''`. The claim's no-op promise for
empty fields fails in the SQL variant. -/
theorem c1_counterexample :
    ((updateSql ⟨[⟨1, "Laptop", "16GB", none⟩], 2, []⟩ 1 (some "") none).2.2).inventory =
      [⟨1, "", "16GB", none⟩] ∧ ("Laptop" : String) ≠ "" :=
  ⟨rfl, by decide⟩

/-- **C1 amended**: in the in-memory variant an empty or omitted field is a
no-op on every stored record; in the SQL variant an omitted field
(JS `undefined`, reaching PostgreSQL as NULL) is a no-op, but an empty
provided string overwrites. -/
theorem c1_update_field_noops (st : MemState) (itemId : Nat) (nm ds : Option String) :
    (jsTruthy nm = false →
      ((updateMem st itemId nm ds).2.2).inventory.map Item.name =
        st.inventory.map Item.name) ∧
    (jsTruthy ds = false →
      ((updateMem st itemId nm ds).2.2).inventory.map Item.description =
        st.inventory.map Item.description) ∧
    (nm = none →
      ((updateSql st itemId nm ds).2.2).inventory.map Item.name =
        st.inventory.map Item.name) ∧
    (ds = none →
      ((updateSql st itemId nm ds).2.2).inventory.map Item.description =
        st.inventory.map Item.description) := by
  refine ⟨?_, ?_, ?_, ?_⟩
  · intro h
    cases hfind : st.inventory.find? (fun i => i.id == itemId) with
    | none => rw [updateMem_notFound _ _ hfind]
    | some item =>
        rw [updateMem_found _ _ hfind]
        exact map_updateFirst _ _ _ _ (fun it => applyUpdate_name_of_falsy _ _ h)
  · intro h
    cases hfind : st.inventory.find? (fun i => i.id == itemId) with
    | none => rw [updateMem_notFound _ _ hfind]
    | some item =>
        rw [updateMem_found _ _ hfind]
        exact map_updateFirst _ _ _ _ (fun it => applyUpdate_description_of_falsy _ _ h)
  · rintro rfl
    cases hfind : st.inventory.find? (fun i => i.id == itemId) with
    | none => rw [updateSql_notFound _ _ hfind]
    | some item =>
        rw [updateSql_found _ _ hfind]
        refine map_comp_eq _ _ _ (fun it => ?_)
        by_cases hi : (it.id == itemId) = true <;> simp [hi, coalesce]
  · rintro rfl
    cases hfind : st.inventory.find? (fun i => i.id == itemId) with
    | none => rw [updateSql_notFound _ _ hfind]
    | some item =>
        rw [updateSql_found _ _ hfind]
        refine map_comp_eq _ _ _ (fun it => ?_)
        by_cases hi : (it.id == itemId) = true <;> simp [hi, coalesce]

/-- Witness for C1 at a concrete store: an empty `name` and omitted
`description` leave both fields unchanged in the in-memory variant, and an
omitted `name` leaves the SQL name column unchanged. -/
theorem c1_update_field_noops_witness :
    jsTruthy (some "") = false ∧
    ((updateMem ⟨[⟨1, "Laptop", "16GB", none⟩], 2, []⟩ 1 (some "") none).2.2).inventory.map
        Item.name = ([⟨1, "Laptop", "16GB", none⟩] : List Item).map Item.name ∧
    ((updateSql ⟨[⟨1, "Laptop", "16GB", none⟩], 2, []⟩ 1 none (some "")).2.2).inventory.map
        Item.name = ([⟨1, "Laptop", "16GB", none⟩] : List Item).map Item.name :=
  ⟨rfl,
    (c1_update_field_noops ⟨[⟨1, "Laptop", "16GB", none⟩], 2, []⟩ 1 (some "") none).1 rfl,
    (c1_update_field_noops ⟨[⟨1, "Laptop", "16GB", none⟩], 2, []⟩ 1 none (some "")).2.2.1 rfl⟩

/-! ### C7 — the search note lives in the response only -/

theorem searchSql_eq_searchMem (st : MemState) (itemId : Nat) (inc : Option String) :
    searchSql st itemId inc = searchMem st itemId inc := rfl

/-- **C7 counterexample**: for a stored item WITHOUT a photo, a search with
`includePhoto=on` returns the description with no note appended — the code
also requires `result.photo` to be truthy, which the claim does not. -/
theorem c7_counterexample :
    (searchMem ⟨[⟨1, "Laptop", "16GB RAM", none⟩], 2, []⟩ 1 (some "on")).2.1 =
      some ⟨1, "Laptop", "16GB RAM", none⟩ ∧
    "16GB RAM" ≠ "16GB RAM" ++ photoNote 1 :=
  ⟨rfl, by decide⟩

/-- **C7 amended**: for every stored item THAT HAS A PHOTO, search with the
flag set answers 200 with the photo-link note appended to the description in
the payload, while the state (hence the stored description) is unchanged, in
both variants. -/
theorem c7_search_note_response_only (st : MemState) (itemId : Nat) (item : Item)
    (hfind : st.inventory.find? (fun i => i.id == itemId) = some item)
    (hphoto : item.photo.isSome = true) :
    (searchMem st itemId (some "on")).1 = 200 ∧
    (searchMem st itemId (some "on")).2.1 =
      some { item with description := item.description ++ photoNote item.id } ∧
    (searchMem st itemId (some "on")).2.2 = st ∧
    (searchSql st itemId (some "on")).2.2 = st := by
  rw [searchSql_eq_searchMem, searchMem_found _ hfind]
  refine ⟨rfl, ?_, rfl, rfl⟩
  simp [hphoto]

/-- Witness for C7 with one stored photo-carrying item. -/
theorem c7_search_note_response_only_witness :
    (([⟨1, "A", "B", some "/c/p"⟩] : List Item).find? (fun i => i.id == 1) =
      some ⟨1, "A", "B", some "/c/p"⟩) ∧
    (some "/c/p" : Option String).isSome = true ∧
    (searchMem ⟨[⟨1, "A", "B", some "/c/p"⟩], 2, ["/c/p"]⟩ 1 (some "on")).2.1 =
      some ⟨1, "A", "B" ++ photoNote 1, some "/c/p"⟩ ∧
    (searchMem ⟨[⟨1, "A", "B", some "/c/p"⟩], 2, ["/c/p"]⟩ 1 (some "on")).2.2 =
      ⟨[⟨1, "A", "B", some "/c/p"⟩], 2, ["/c/p"]⟩ :=
  ⟨rfl, rfl,
    (c7_search_note_response_only ⟨[⟨1, "A", "B", some "/c/p"⟩], 2, ["/c/p"]⟩ 1
      ⟨1, "A", "B", some "/c/p"⟩ rfl rfl).2.1,
    (c7_search_note_response_only ⟨[⟨1, "A", "B", some "/c/p"⟩], 2, ["/c/p"]⟩ 1
      ⟨1, "A", "B", some "/c/p"⟩ rfl rfl).2.2.1⟩

/-! ### C8 — delete then get-photo -/

/-- **C8** (algebraic): after a successful delete of an item (in a store with
pairwise-distinct ids, which every reachable state has), a get-photo request
for the same id answers 404, whatever photo the item used to carry. -/
theorem c8_delete_then_getPhoto_404 (st : MemState) (itemId : Nat)
    (hnodup : (st.inventory.map Item.id).Nodup)
    (hdel : (deleteMem st itemId).1 = 200) :
    getPhotoMem (deleteMem st itemId).2 itemId = 404 := by
  cases hrem : removeFirst st.inventory itemId with
  | mk o rest =>
    cases o with
    | none =>
        rw [deleteMem_notFound hrem] at hdel
        simp at hdel
    | some d =>
        rw [deleteMem_found hrem]
        obtain ⟨l1, l2, hdec, hrest, hl1, hid⟩ := removeFirst_decomp hrem
        subst hrest
        apply getPhotoMem_notFound
        rw [List.find?_eq_none]
        intro x hx
        rw [hdec] at hnodup
        simp only [List.map_append, List.map_cons] at hnodup
        have hd2 : d.id ∉ List.map Item.id l2 := by
          rw [List.nodup_middle, List.nodup_cons] at hnodup
          exact fun hm => hnodup.1 (List.mem_append_right _ hm)
        rcases List.mem_append.mp hx with hm | hm
        · simpa using hl1 x hm
        · simp only [beq_iff_eq]
          intro hxi
          apply hd2
          have hdi : d.id = itemId := by simpa using hid
          rw [hdi, ← hxi]
          exact List.mem_map_of_mem Item.id hm

/-- Witness for C8: one stored item with an on-disk photo, deleted. -/
theorem c8_delete_then_getPhoto_404_witness :
    ((([⟨1, "A", "B", some "/c/p"⟩] : List Item).map Item.id).Nodup) ∧
    (deleteMem ⟨[⟨1, "A", "B", some "/c/p"⟩], 2, ["/c/p"]⟩ 1).1 = 200 ∧
    getPhotoMem (deleteMem ⟨[⟨1, "A", "B", some "/c/p"⟩], 2, ["/c/p"]⟩ 1).2 1 = 404 :=
  ⟨by decide, by decide,
    c8_delete_then_getPhoto_404 ⟨[⟨1, "A", "B", some "/c/p"⟩], 2, ["/c/p"]⟩ 1
      (by decide) (by decide)⟩

/-! ### C2 — observable equivalence of the two variants -/

theorem updateMem_status_eq (st : MemState) (itemId : Nat) (nm ds : Option String) :
    (updateMem st itemId nm ds).1 = (updateSql st itemId nm ds).1 := by
  cases hfind : st.inventory.find? (fun i => i.id == itemId) with
  | none => rw [updateMem_notFound _ _ hfind, updateSql_notFound _ _ hfind]
  | some item => rw [updateMem_found _ _ hfind, updateSql_found _ _ hfind]

theorem deleteMem_status_eq (st : MemState) (itemId : Nat) :
    (deleteMem st itemId).1 = (deleteSql st itemId).1 := by
  cases hrem : removeFirst st.inventory itemId with
  | mk o rest =>
      have hfind : st.inventory.find? (fun x => x.id == itemId) = o := by
        rw [← removeFirst_fst_eq_find?, hrem]
      cases o with
      | none => rw [deleteMem_notFound hrem, deleteSql_notFound hfind]
      | some item => rw [deleteMem_found hrem, deleteSql_found hfind]

theorem replacePhoto_status_eq (st : MemState) (itemId : Nat) (file : Option String)
    (h : file.isSome = true ∨ (st.inventory.find? (fun i => i.id == itemId)).isSome = true) :
    (replacePhotoMemReq st itemId file).1 = (replacePhotoSqlReq st itemId file).1 := by
  cases file with
  | none =>
      rcases h with h | h
      · simp at h
      · rw [replacePhotoMemReq, replacePhotoSqlReq, show multerSave st none = st from rfl]
        rw [replacePhotoSql_noFile]
        obtain ⟨item, hfind⟩ := Option.isSome_iff_exists.mp h
        rw [replacePhotoMem_noFile hfind]
  | some p =>
      rw [replacePhotoMemReq, replacePhotoSqlReq]
      cases hfind : (multerSave st (some p)).inventory.find? (fun i => i.id == itemId) with
      | none =>
          rw [replacePhotoMem_notFound _ hfind, replacePhotoSql_notFound p hfind]
      | some item =>
          rw [replacePhotoMem_success p hfind, replacePhotoSql_success p hfind]

/-- **C2 counterexample**: a photo-replace request with an unknown id and no
uploaded file is answered 404 by the in-memory variant (not-found check
first) but 400 by the SQL variant (file check first). -/
theorem c2_counterexample :
    (replacePhotoMemReq ⟨[], 1, []⟩ 1 none).1 = 404 ∧
    (replacePhotoSqlReq ⟨[], 1, []⟩ 1 none).1 = 400 ∧
    (404 : Nat) ≠ 400 :=
  ⟨rfl, rfl, by decide⟩

/-- **C2 amended**: the two variants answer the same status for register,
list, get-by-id, update, get-photo, delete and search on every common state
and request; for photo replace they agree whenever a file is uploaded or the
id is known — the only divergence is the no-file/unknown-id request of the
counterexample. -/
theorem c2_status_equivalence (st : MemState) (itemId : Nat)
    (nm ds file inc : Option String)
    (h : file.isSome = true ∨ (st.inventory.find? (fun i => i.id == itemId)).isSome = true) :
    (registerMemReq st nm ds file).1 = (registerSqlReq st nm ds file).1 ∧
    (listMem st).1 = (listSql st).1 ∧
    (getByIdMem st itemId).1 = (getByIdSql st itemId).1 ∧
    (updateMem st itemId nm ds).1 = (updateSql st itemId nm ds).1 ∧
    getPhotoMem st itemId = getPhotoSql st itemId ∧
    (deleteMem st itemId).1 = (deleteSql st itemId).1 ∧
    (searchMem st itemId inc).1 = (searchSql st itemId inc).1 ∧
    (replacePhotoMemReq st itemId file).1 = (replacePhotoSqlReq st itemId file).1 :=
  ⟨rfl, rfl, rfl, updateMem_status_eq st itemId nm ds, rfl, deleteMem_status_eq st itemId,
    by rw [searchSql_eq_searchMem], replacePhoto_status_eq st itemId file h⟩

/-- Witness for C2 at a one-item store, replacing a photo without a file on a
known id (both variants answer 400). -/
theorem c2_status_equivalence_witness :
    ((none : Option String).isSome = true ∨
      ((⟨[⟨1, "A", "B", none⟩], 2, []⟩ : MemState).inventory.find?
        (fun i => i.id == 1)).isSome = true) ∧
    ((registerMemReq ⟨[⟨1, "A", "B", none⟩], 2, []⟩ (some "N") none none).1 =
       (registerSqlReq ⟨[⟨1, "A", "B", none⟩], 2, []⟩ (some "N") none none).1 ∧
     (listMem ⟨[⟨1, "A", "B", none⟩], 2, []⟩).1 = (listSql ⟨[⟨1, "A", "B", none⟩], 2, []⟩).1 ∧
     (getByIdMem ⟨[⟨1, "A", "B", none⟩], 2, []⟩ 1).1 =
       (getByIdSql ⟨[⟨1, "A", "B", none⟩], 2, []⟩ 1).1 ∧
     (updateMem ⟨[⟨1, "A", "B", none⟩], 2, []⟩ 1 (some "N") none).1 =
       (updateSql ⟨[⟨1, "A", "B", none⟩], 2, []⟩ 1 (some "N") none).1 ∧
     getPhotoMem ⟨[⟨1, "A", "B", none⟩], 2, []⟩ 1 =
       getPhotoSql ⟨[⟨1, "A", "B", none⟩], 2, []⟩ 1 ∧
     (deleteMem ⟨[⟨1, "A", "B", none⟩], 2, []⟩ 1).1 =
       (deleteSql ⟨[⟨1, "A", "B", none⟩], 2, []⟩ 1).1 ∧
     (searchMem ⟨[⟨1, "A", "B", none⟩], 2, []⟩ 1 (some "on")).1 =
       (searchSql ⟨[⟨1, "A", "B", none⟩], 2, []⟩ 1 (some "on")).1 ∧
     (replacePhotoMemReq ⟨[⟨1, "A", "B", none⟩], 2, []⟩ 1 none).1 =
       (replacePhotoSqlReq ⟨[⟨1, "A", "B", none⟩], 2, []⟩ 1 none).1) :=
  ⟨Or.inr (by decide),
    c2_status_equivalence ⟨[⟨1, "A", "B", none⟩], 2, []⟩ 1 (some "N") none none (some "on")
      (Or.inr (by decide))⟩

/-! ### C5 — behavior of the photo-replace operation -/

/-- **C5 counterexample**: the claim says a photo-replace request with no
uploaded file fails with 400; in the in-memory variant an unknown id takes
precedence and the answer is 404. -/
theorem c5_counterexample :
    (replacePhotoMemReq ⟨[], 1, []⟩ 1 none).1 = 404 ∧ (404 : Nat) ≠ 400 :=
  ⟨rfl, by decide⟩

/-- **C5 amended**: photo replace behaves as the claim says except for the
check order in the in-memory variant: the SQL variant answers 400 on a
missing file unconditionally, the in-memory variant answers 400 on a missing
file only when the id is known (otherwise 404); with a file and an unknown
id both answer 404; with a file and a known id both answer 200, the new file
is on disk, the item's photo path becomes the new path, and one occurrence
of the previously referenced file (if any) is removed from disk. -/
theorem c5_replacePhoto_behavior (st : MemState) (itemId : Nat) (newPath : String)
    (hfresh : newPath ∉ st.disk) (hpod : PhotosOnDisk st.inventory st.disk) :
    (replacePhotoSqlReq st itemId none).1 = 400 ∧
    ((st.inventory.find? (fun i => i.id == itemId)).isSome = true →
      (replacePhotoMemReq st itemId none).1 = 400) ∧
    (st.inventory.find? (fun i => i.id == itemId) = none →
      (replacePhotoMemReq st itemId (some newPath)).1 = 404 ∧
      (replacePhotoSqlReq st itemId (some newPath)).1 = 404) ∧
    (∀ item, st.inventory.find? (fun i => i.id == itemId) = some item →
      (replacePhotoMemReq st itemId (some newPath)).1 = 200 ∧
      (replacePhotoSqlReq st itemId (some newPath)).1 = 200 ∧
      newPath ∈ (replacePhotoMemReq st itemId (some newPath)).2.disk ∧
      (∃ it' ∈ (replacePhotoMemReq st itemId (some newPath)).2.inventory,
        it'.id = item.id ∧ it'.photo = some newPath) ∧
      (∀ q, item.photo = some q → q ∈ st.disk →
        ((replacePhotoMemReq st itemId (some newPath)).2.disk).count q =
          st.disk.count q - 1)) := by
  refine ⟨rfl, ?_, ?_, ?_⟩
  · intro h
    obtain ⟨item, hfind⟩ := Option.isSome_iff_exists.mp h
    rw [replacePhotoMemReq, show multerSave st none = st from rfl,
      replacePhotoMem_noFile hfind]
  · intro hfind
    have hfind' : (multerSave st (some newPath)).inventory.find?
        (fun i => i.id == itemId) = none := hfind
    rw [replacePhotoMemReq, replacePhotoMem_notFound _ hfind',
      replacePhotoSqlReq, replacePhotoSql_notFound newPath hfind']
    exact ⟨rfl, rfl⟩
  · intro item hfind
    have hfind' : (multerSave st (some newPath)).inventory.find?
        (fun i => i.id == itemId) = some item := hfind
    have hitem : item ∈ st.inventory := List.mem_of_find?_eq_some hfind
    obtain ⟨l1, l2, hdec, hl1, hid⟩ := find?_decomp hfind
    rw [replacePhotoMemReq, replacePhotoMem_success newPath hfind',
      replacePhotoSqlReq, replacePhotoSql_success newPath hfind']
    refine ⟨rfl, rfl, ?_, ?_, ?_⟩
    · cases hphoto : item.photo with
      | none =>
          rw [cleanupPhoto_none]
          exact List.mem_cons_self _ _
      | some q =>
          have hq : q ∈ st.disk := hpod item hitem q hphoto
          have hqne : ¬((newPath : String) == q) = true := by
            simp only [beq_iff_eq]
            rintro rfl
            exact hfresh hq
          rw [show (multerSave st (some newPath)).disk = newPath :: st.disk from rfl,
            cleanupPhoto_some_mem (List.mem_cons_of_mem _ hq), List.erase_cons_tail hqne]
          exact List.mem_cons_self _ _
    · rw [multerSave_inventory, hdec, updateFirst_append l1 item l2 itemId _ hl1 hid]
      exact ⟨{ item with photo := some newPath },
        List.mem_append_right _ (List.mem_cons_self _ _), rfl, rfl⟩
    · intro q hphoto hq
      have hqne : ¬((newPath : String) == q) = true := by
        simp only [beq_iff_eq]
        rintro rfl
        exact hfresh hq
      rw [hphoto, show (multerSave st (some newPath)).disk = newPath :: st.disk from rfl,
        cleanupPhoto_some_mem (List.mem_cons_of_mem _ hq), List.erase_cons_tail hqne,
        List.count_cons_of_ne (fun he => by exact hqne (by simp [he])), ]
      exact List.count_erase_self q st.disk

/-- Witness for C5: one stored item whose photo `/c/old` is on disk, replaced
by the fresh upload `/c/new`. -/
theorem c5_replacePhoto_behavior_witness :
    ("/c/new" ∉ (["/c/old"] : List String)) ∧
    PhotosOnDisk [⟨1, "A", "B", some "/c/old"⟩] ["/c/old"] ∧
    (replacePhotoSqlReq ⟨[⟨1, "A", "B", some "/c/old"⟩], 2, ["/c/old"]⟩ 1 none).1 = 400 ∧
    ((((⟨[⟨1, "A", "B", some "/c/old"⟩], 2, ["/c/old"]⟩ : MemState)).inventory.find?
        (fun i => i.id == 1)).isSome = true →
      (replacePhotoMemReq ⟨[⟨1, "A", "B", some "/c/old"⟩], 2, ["/c/old"]⟩ 1 none).1 = 400) :=
  ⟨by decide,
    fun it hit p hp => by
      rw [List.mem_singleton] at hit
      subst hit
      obtain rfl : "/c/old" = p := by injection hp
      exact List.mem_singleton.mpr rfl,
    (c5_replacePhoto_behavior ⟨[⟨1, "A", "B", some "/c/old"⟩], 2, ["/c/old"]⟩ 1 "/c/new"
      (by decide)
      (fun it hit p hp => by
        rw [List.mem_singleton] at hit
        subst hit
        obtain rfl : "/c/old" = p := by injection hp
        exact List.mem_singleton.mpr rfl)).1,
    (c5_replacePhoto_behavior ⟨[⟨1, "A", "B", some "/c/old"⟩], 2, ["/c/old"]⟩ 1 "/c/new"
      (by decide)
      (fun it hit p hp => by
        rw [List.mem_singleton] at hit
        subst hit
        obtain rfl : "/c/old" = p := by injection hp
        exact List.mem_singleton.mpr rfl)).2.1⟩

/-! ### C9 — the read paths are faithful to the store -/

/-- **C9**: get-by-id answers 200 with exactly the stored record's name and
description; the computed `photo_url` value is non-null iff the stored photo
path is non-null, and then it is the per-item photo endpoint; the list read
path applies the same augmentation to every record; and registration stores
the submitted name/description (so a get after register returns them). -/
theorem c9_getById_faithful (st : MemState) (itemId : Nat) (item : Item)
    (hfind : st.inventory.find? (fun i => i.id == itemId) = some item) :
    getByIdMem st itemId = (200, some (withLink item)) ∧
    (withLink item).name = item.name ∧
    (withLink item).description = item.description ∧
    ((withLink item).photo_url ≠ none ↔ item.photo ≠ none) ∧
    (item.photo ≠ none →
      (withLink item).photo_url = some ("/inventory/" ++ toString item.id ++ "/photo")) ∧
    (listMem st).2 = st.inventory.map withLink ∧
    (∀ nm ds file, jsTruthy nm = true →
      (registerMemReq st nm ds file).2.1 =
        some ⟨st.nextId, jsOr nm "", jsOr ds "", file⟩ ∧
      (⟨st.nextId, jsOr nm "", jsOr ds "", file⟩ : Item) ∈
        (registerMemReq st nm ds file).2.2.inventory) := by
  refine ⟨getByIdMem_found hfind, rfl, rfl, ?_, ?_, rfl, ?_⟩
  · cases hp : item.photo <;> simp [withLink, photoUrl, hp]
  · intro hp
    cases hp2 : item.photo with
    | none => exact absurd hp2 hp
    | some q => simp [withLink, photoUrl, hp2]
  · intro nm ds file hn
    rw [registerMemReq, registerMem_success _ _ _ hn, multerSave_inventory, multerSave_nextId]
    exact ⟨rfl, List.mem_append_right _ (List.mem_cons_self _ _)⟩

/-- Witness for C9 at a store holding one item with a photo. -/
theorem c9_getById_faithful_witness :
    (([⟨1, "A", "B", some "/c/p"⟩] : List Item).find? (fun i => i.id == 1) =
      some ⟨1, "A", "B", some "/c/p"⟩) ∧
    getByIdMem ⟨[⟨1, "A", "B", some "/c/p"⟩], 2, ["/c/p"]⟩ 1 =
      (200, some (withLink ⟨1, "A", "B", some "/c/p"⟩)) ∧
    ((withLink (⟨1, "A", "B", some "/c/p"⟩ : Item)).photo_url ≠ none ↔
      (some "/c/p" : Option String) ≠ none) :=
  ⟨rfl,
    (c9_getById_faithful ⟨[⟨1, "A", "B", some "/c/p"⟩], 2, ["/c/p"]⟩ 1
      ⟨1, "A", "B", some "/c/p"⟩ rfl).1,
    (c9_getById_faithful ⟨[⟨1, "A", "B", some "/c/p"⟩], 2, ["/c/p"]⟩ 1
      ⟨1, "A", "B", some "/c/p"⟩ rfl).2.2.2.1⟩

/-! ### C10 — write paths answer with the raw stored record -/

theorem find?_map_id_preserving {inv : List Item} {i : Nat} {item : Item} (f : Item → Item)
    (hf : ∀ it, (f it).id = it.id)
    (hfind : inv.find? (fun x => x.id == i) = some item) :
    (inv.map f).find? (fun x => x.id == i) = some (f item) := by
  induction inv with
  | nil => simp [List.find?] at hfind
  | cons a rest ih =>
      by_cases ha : (a.id == i) = true
      · rw [@List.find?_cons_of_pos _ (fun x => x.id == i) a rest ha] at hfind
        obtain rfl : a = item := by injection hfind
        rw [List.map_cons,
          @List.find?_cons_of_pos _ (fun x => x.id == i) (f a) (rest.map f)
            (by show ((f a).id == i) = true; rw [hf]; exact ha)]
      · rw [@List.find?_cons_of_neg _ (fun x => x.id == i) a rest ha] at hfind
        rw [List.map_cons,
          @List.find?_cons_of_neg _ (fun x => x.id == i) (f a) (rest.map f)
            (by show ¬((f a).id == i) = true; rw [hf]; exact ha)]
        exact ih hfind

/-- **C10**: a successful register answers 201 with exactly the record
appended to the store — `photo` holding the raw absolute path, no `photo_url`
field (the payload is an `Item`, not an `ItemWithLink`); a successful field
update answers with exactly the record as stored after the update, its raw
photo path untouched. Both variants. -/
theorem c10_write_paths_return_raw_record (st : MemState) (nm ds file : Option String)
    (itemId : Nat) (item : Item)
    (hn : jsTruthy nm = true)
    (hfind : st.inventory.find? (fun i => i.id == itemId) = some item) :
    (registerMemReq st nm ds file).2.1 = some ⟨st.nextId, jsOr nm "", jsOr ds "", file⟩ ∧
    (registerMemReq st nm ds file).2.2.inventory =
      st.inventory ++ [⟨st.nextId, jsOr nm "", jsOr ds "", file⟩] ∧
    (registerSqlReq st nm ds file).2.1 = some ⟨st.nextId, jsOr nm "", jsOr ds "", file⟩ ∧
    (registerSqlReq st nm ds file).2.2.inventory =
      st.inventory ++ [⟨st.nextId, jsOr nm "", jsOr ds "", file⟩] ∧
    ((updateMem st itemId nm ds).2.1 = some (applyUpdate nm ds item) ∧
      applyUpdate nm ds item ∈ (updateMem st itemId nm ds).2.2.inventory ∧
      (applyUpdate nm ds item).photo = item.photo) ∧
    (∃ stored, (updateSql st itemId nm ds).2.1 = some stored ∧
      stored ∈ (updateSql st itemId nm ds).2.2.inventory ∧
      stored.photo = item.photo) := by
  have hreg : registerMemReq st nm ds file =
      (201, some ⟨st.nextId, jsOr nm "", jsOr ds "", file⟩,
        { multerSave st file with
            inventory := st.inventory ++ [⟨st.nextId, jsOr nm "", jsOr ds "", file⟩],
            nextId := st.nextId + 1 }) := by
    rw [registerMemReq, registerMem_success _ _ _ hn, multerSave_inventory, multerSave_nextId]
  have hregSql : registerSqlReq st nm ds file = registerMemReq st nm ds file := rfl
  obtain ⟨l1, l2, hdec, hl1, hid⟩ := find?_decomp hfind
  refine ⟨by rw [hreg], by rw [hreg], by rw [hregSql, hreg], by rw [hregSql, hreg], ?_, ?_⟩
  · rw [updateMem_found nm ds hfind]
    refine ⟨rfl, ?_, applyUpdate_photo nm ds item⟩
    rw [hdec, updateFirst_append l1 item l2 itemId _ hl1 hid]
    exact List.mem_append_right _ (List.mem_cons_self _ _)
  · rw [updateSql_found nm ds hfind]
    refine ⟨(fun it =>
        if it.id == itemId then
          { it with name := coalesce nm it.name, description := coalesce ds it.description }
        else it) item, ?_, ?_, ?_⟩
    · exact find?_map_id_preserving _
        (fun it => by by_cases hi : (it.id == itemId) = true <;> simp [hi]) hfind
    · exact List.mem_map_of_mem _ (List.mem_of_find?_eq_some hfind)
    · simp [List.find?_some hfind]

/-- Witness for C10: register (`name: "N"`) and update against a one-item
store. -/
theorem c10_write_paths_return_raw_record_witness :
    jsTruthy (some "N") = true ∧
    (([⟨1, "A", "B", some "/c/p"⟩] : List Item).find? (fun i => i.id == 1) =
      some ⟨1, "A", "B", some "/c/p"⟩) ∧
    (registerMemReq ⟨[⟨1, "A", "B", some "/c/p"⟩], 2, ["/c/p"]⟩ (some "N") none none).2.1 =
      some ⟨2, jsOr (some "N") "", jsOr none "", none⟩ ∧
    ((updateMem ⟨[⟨1, "A", "B", some "/c/p"⟩], 2, ["/c/p"]⟩ 1 (some "N") none).2.1 =
      some (applyUpdate (some "N") none ⟨1, "A", "B", some "/c/p"⟩) ∧
     applyUpdate (some "N") none ⟨1, "A", "B", some "/c/p"⟩ ∈
       (updateMem ⟨[⟨1, "A", "B", some "/c/p"⟩], 2, ["/c/p"]⟩ 1 (some "N") none).2.2.inventory ∧
     (applyUpdate (some "N") none (⟨1, "A", "B", some "/c/p"⟩ : Item)).photo =
       (⟨1, "A", "B", some "/c/p"⟩ : Item).photo) :=
  ⟨rfl, rfl,
    (c10_write_paths_return_raw_record ⟨[⟨1, "A", "B", some "/c/p"⟩], 2, ["/c/p"]⟩
      (some "N") none none 1 ⟨1, "A", "B", some "/c/p"⟩ rfl rfl).1,
    (c10_write_paths_return_raw_record ⟨[⟨1, "A", "B", some "/c/p"⟩], 2, ["/c/p"]⟩
      (some "N") none none 1 ⟨1, "A", "B", some "/c/p"⟩ rfl rfl).2.2.2.2.1⟩

end Inventory
